import Mathlib

/-!
Shallow embedding of the pair-analytics repository
(`analytics_engine.py`, `app.py`, `data_ingestor.py`).

Conventions of the embedding:
* Timestamps are `Nat` values in the granularity's base time unit (seconds
  for the engine's 1-second resampling); `pd.to_datetime(..., errors="coerce")`
  failures are `Option.none`.
* Floating-point values are modelled as exact rationals `ℚ`; pandas `NaN`
  is `Option.none`.
* A rolling z-score or correlation value is of the form `num / sqrt(den)`
  (numerator over the square root of a positive variance product).  We store
  it exactly as the pair `SqrtVal` so that every definition stays computable;
  the literal float `0.0` written by the source is `⟨0, 1⟩ = 0 / sqrt 1`.
* pandas `x.rolling(w).std()` uses `ddof = 1`: over a window of length 1 the
  divisor is zero and the result is `NaN`, and a zero standard deviation makes
  the z-score `0/0 = NaN`.  Both cases are exactly the `qvar win = 0` test in
  `zscoreAt` below (in exact arithmetic the sample variance of a 1-window is
  encoded as division by zero, which is `0` in `ℚ`).
-/

/-- An exact representation of `num / Real.sqrt den` with `den` a product of
sample variances (nonnegative); keeps rolling statistics computable. -/
structure SqrtVal where
  num : ℚ
  den : ℚ
deriving DecidableEq, Repr

/-- The float literal `0.0` assigned by the degraded-mode branch. -/
def SqrtVal.zero : SqrtVal := ⟨0, 1⟩

/-- Arithmetic mean of a list of rationals (`sum / len`; unused on `[]`). -/
def qmean (xs : List ℚ) : ℚ := xs.sum / (xs.length : ℚ)

/-- Sample variance with `ddof = 1`, as pandas `rolling(w).std()^2`.
For a singleton list the divisor is `0`, hence the value is `0`, which the
callers treat as the `NaN` standard deviation pandas produces there. -/
def qvar (xs : List ℚ) : ℚ :=
  (xs.map (fun x => (x - qmean xs) ^ 2)).sum / ((xs.length : ℚ) - 1)

/-- Sample covariance with `ddof = 1` (pandas rolling covariance). -/
def qcov (xs ys : List ℚ) : ℚ :=
  (List.zipWith (fun a b => (a - qmean xs) * (b - qmean ys)) xs ys).sum /
    ((xs.length : ℚ) - 1)

/-- The trailing window of width `w` ending at index `i`:
elements `i+1-w, …, i` of `xs`. -/
def winSlice (xs : List ℚ) (w i : Nat) : List ℚ :=
  (xs.take (i + 1)).drop (i + 1 - w)

/-- `zscore[i] = (spread[i] - rollingMean(w)[i]) / rollingStd(w)[i]`.
`none` while the window is not yet full (pandas `min_periods = window`) and
when the standard deviation is `NaN` (window of 1) or `0` (degenerate
zero-variance window, where the numerator is also `0`, so the float result is
`0/0 = NaN`). -/
def zscoreAt (spreads : List ℚ) (w i : Nat) (s : ℚ) : Option SqrtVal :=
  if i + 1 < w then none
  else
    let win := winSlice spreads w i
    if qvar win = 0 then none else some ⟨s - qmean win, qvar win⟩

/-- Rolling Pearson correlation `corr[i] = cov / (std_x * std_y)` over the
trailing window, i.e. `qcov / sqrt(qvar_x * qvar_y)`; `none` before the window
is full or when either variance is degenerate (pandas `NaN`). -/
def corrAt (xs ys : List ℚ) (w i : Nat) : Option SqrtVal :=
  if i + 1 < w then none
  else
    let wx := winSlice xs w i
    let wy := winSlice ys w i
    if qvar wx = 0 ∨ qvar wy = 0 then none
    else some ⟨qcov wx wy, qvar wx * qvar wy⟩

/-- One raw row of the tick DataFrame `[ts, symbol, price, size]`.
`ts = none` models an unparseable timestamp (NaT after
`pd.to_datetime(..., errors="coerce")`); `price = none` a missing price. -/
structure Tick where
  ts : Option Nat
  symbol : String
  price : Option ℚ
  size : ℚ
deriving DecidableEq, Repr

/-- One output row of `compute_analytics`:
`[time, price_btc, price_eth, spread, zscore, rolling_corr]`. -/
structure ARow where
  time : Nat
  price_btc : ℚ
  price_eth : ℚ
  spread : ℚ
  zscore : Option SqrtVal
  rolling_corr : Option SqrtVal
deriving DecidableEq, Repr

/-- `df.dropna(subset=["ts", "price"])`: keep rows whose timestamp parsed and
whose price is present, as `(ts, symbol, price)` triples. -/
def validRows (df : List Tick) : List (Nat × String × ℚ) :=
  df.filterMap (fun r =>
    match r.ts, r.price with
    | some t, some p => some (t, r.symbol, p)
    | _, _ => none)

/-- `df.set_index("ts").sort_index()`: sort rows by timestamp. -/
def sortByTs (xs : List (Nat × String × ℚ)) : List (Nat × String × ℚ) :=
  xs.insertionSort (fun a b => a.1 ≤ b.1)

/-- `series.resample(g).last()` restricted to non-empty buckets: group a
time-sorted `(ts, price)` series by the bucket `ts / g`, label each bucket
with its left edge `ts / g * g`, and keep the last observed price of each
bucket.  Buckets with no observation carry `NaN` in pandas and are removed by
the callers' `dropna`, so they are omitted here directly. -/
def resampleLast (g : Nat) : List (Nat × ℚ) → List (Nat × ℚ)
  | [] => []
  | (t, p) :: rest =>
    match resampleLast g rest with
    | [] => [(t / g * g, p)]
    | (b, q) :: tail =>
      if t / g * g = b then (b, q) :: tail else (t / g * g, p) :: (b, q) :: tail

/-- Skip the buckets of a sorted series lying strictly before bucket `a`. -/
def dropLt (a : Nat) : List (Nat × ℚ) → List (Nat × ℚ)
  | [] => []
  | (b, q) :: bs => if b < a then dropLt a bs else (b, q) :: bs

/-- `pd.concat([a, b], axis=1).dropna()` on two bucket-sorted resampled
series: the buckets present in both, with both prices (merge join). -/
def align : List (Nat × ℚ) → List (Nat × ℚ) → List (Nat × ℚ × ℚ)
  | [], _ => []
  | (a, p) :: as_, ys =>
    match dropLt a ys with
    | [] => []
    | (b, q) :: bs =>
      if a = b then (a, p, q) :: align as_ bs else align as_ ((b, q) :: bs)

/-- `str.lower()` as a per-character map (symbols are ASCII identifiers, on
which Python and `Char.toLower` lowercase identically). -/
def lowerStr (s : String) : String := ⟨s.data.map Char.toLower⟩

/-- `df[df["symbol"].str.lower() == "btcusdt"]` over the cleaned, sorted rows. -/
def btcRows (df : List Tick) : List (Nat × String × ℚ) :=
  (sortByTs (validRows df)).filter (fun e => lowerStr e.2.1 == "btcusdt")

/-- `df[df["symbol"].str.lower() == "ethusdt"]` over the cleaned, sorted rows. -/
def ethRows (df : List Tick) : List (Nat × String × ℚ) :=
  (sortByTs (validRows df)).filter (fun e => lowerStr e.2.1 == "ethusdt")

/-- Drop symbols, keep `(ts, price)`. -/
def priceSeries (xs : List (Nat × String × ℚ)) : List (Nat × ℚ) :=
  xs.map (fun e => (e.1, e.2.2))

/-- The aligned 1-second buckets `merged` of `compute_analytics`: both series
resampled to 1-second buckets, joined, rows with either side missing dropped. -/
def mergedOf (df : List Tick) : List (Nat × ℚ × ℚ) :=
  align (resampleLast 1 (priceSeries (btcRows df)))
      (resampleLast 1 (priceSeries (ethRows df)))

/-- Step 4 of `compute_analytics`: the spread column and, depending on
`len(merged) >= window`, either the rolling z-score / rolling correlation
columns or the flat `0.0` degraded-mode columns. -/
def mkRows (merged : List (Nat × ℚ × ℚ)) (w : Nat) : List ARow :=
  if w ≤ merged.length then
    let spreads := merged.map (fun e => e.2.1 - e.2.2)
    let xs := merged.map (fun e => e.2.1)
    let ys := merged.map (fun e => e.2.2)
    merged.enum.map (fun ie =>
      ⟨ie.2.1, ie.2.2.1, ie.2.2.2, ie.2.2.1 - ie.2.2.2,
        zscoreAt spreads w ie.1 (ie.2.2.1 - ie.2.2.2), corrAt xs ys w ie.1⟩)
  else
    merged.map (fun e =>
      ⟨e.1, e.2.1, e.2.2, e.2.1 - e.2.2, some SqrtVal.zero, some SqrtVal.zero⟩)

/-- The final `merged.dropna()`: the price and spread columns are never `NaN`
at this point, so only rows with a `NaN` z-score or correlation are removed. -/
def dropnaRows (rows : List ARow) : List ARow :=
  rows.filter (fun r => r.zscore.isSome && r.rolling_corr.isSome)

/-- `analytics_engine.compute_analytics(df, window)`: empty-input guard,
timestamp parsing and cleaning, split by symbol with missing-symbol guard,
1-second resampling, alignment with empty-overlap guard, spread / z-score /
rolling-correlation columns, final `dropna`. -/
def compute_analytics (df : List Tick) (window : Nat) : List ARow :=
  if df = [] then []
  else if btcRows df = [] ∨ ethRows df = [] then []
  else if mergedOf df = [] then []
  else dropnaRows (mkRows (mergedOf df) window)

/-!
## `app.py`: `resample_data` and the live-view `compute_analytics`
-/

/-- `resample(timeframe).agg({"price": "last", "size": "sum"}).dropna()` on
the time-sorted `(ts, price, size)` rows of one symbol: group by the bucket
`ts / g`, keep the last price and the size total of each non-empty bucket
(empty buckets have a `NaN` price and are removed by the `dropna`). -/
def resampleAgg (g : Nat) : List (Nat × ℚ × ℚ) → List (Nat × ℚ × ℚ)
  | [] => []
  | (t, p, s) :: rest =>
    match resampleAgg g rest with
    | [] => [(t / g * g, p, s)]
    | (b, q, z) :: tail =>
      if t / g * g = b then (b, q, z + s) :: tail
      else (t / g * g, p, s) :: (b, q, z) :: tail

/-- `df.index.round(timeframe)`: round a timestamp to the nearest multiple of
`g` (ties rounded up; on the multiples of `g` produced by resampling this is
the identity, so the tie-breaking convention is never observable there). -/
def roundTo (g t : Nat) : Nat := (t + g / 2) / g * g

/-- `app.resample_data` after the symbol filter: aggregate to the grid of
width `g`, then round the index onto the grid. -/
def resample_data (g : Nat) (rows : List (Nat × ℚ × ℚ)) : List (Nat × ℚ × ℚ) :=
  (resampleAgg g rows).map (fun e => (roundTo g e.1, e.2.1, e.2.2))

/-- The tuple returned by `app.compute_analytics(df1, df2, window)` in the
non-empty case: the aligned pair frame (`p1`, `p2` per bucket), the
hedge-ratio spread, the zero-filled z-score column, the OLS hedge ratio and
the rolling-correlation column (which is NOT zero-filled). -/
structure AppResult where
  pairs : List (Nat × ℚ × ℚ)
  spread : List ℚ
  zscore : List SqrtVal
  hedge_ratio : ℚ
  rolling_corr : List (Option SqrtVal)
deriving DecidableEq, Repr

/-- The `(ts, price)` column pair of a resampled frame. -/
def keyPrices (d : List (Nat × ℚ × ℚ)) : List (Nat × ℚ) :=
  d.map (fun e => (e.1, e.2.1))

/-- `pd.concat([df1["price"], df2["price"]], axis=1).dropna()`: the buckets
where both resampled frames have a price. -/
def appPairs (d1 d2 : List (Nat × ℚ × ℚ)) : List (Nat × ℚ × ℚ) :=
  align (keyPrices d1) (keyPrices d2)

/-- The OLS hedge ratio: slope of `p1` regressed on `p2` with intercept,
`cov(p2, p1) / var(p2)` (the `ddof` normalisations cancel in the ratio). -/
def appHedge (pairs : List (Nat × ℚ × ℚ)) : ℚ :=
  qcov (pairs.map (fun e => e.2.2)) (pairs.map (fun e => e.2.1)) /
    qvar (pairs.map (fun e => e.2.2))

/-- `spread = df["p1"] - hedge_ratio * df["p2"]`. -/
def appSpread (pairs : List (Nat × ℚ × ℚ)) : List ℚ :=
  List.zipWith (fun a b => a - appHedge pairs * b)
    (pairs.map (fun e => e.2.1)) (pairs.map (fun e => e.2.2))

/-- `zscore = ((spread - rolling mean) / rolling std).fillna(0)`. -/
def appZscore (pairs : List (Nat × ℚ × ℚ)) (w : Nat) : List SqrtVal :=
  (appSpread pairs).enum.map (fun ie =>
    (zscoreAt (appSpread pairs) w ie.1 ie.2).getD SqrtVal.zero)

/-- `rolling_corr = df["p1"].rolling(window).corr(df["p2"])`, with no fill. -/
def appCorr (pairs : List (Nat × ℚ × ℚ)) (w : Nat) : List (Option SqrtVal) :=
  (List.range pairs.length).map (fun i =>
    corrAt (pairs.map (fun e => e.2.1)) (pairs.map (fun e => e.2.2)) w i)

/-- `app.compute_analytics(df1, df2, window)`; `none` is the
`(None, None, None, None, None)` early return for an empty overlap. -/
def app_compute_analytics (df1 df2 : List (Nat × ℚ × ℚ)) (w : Nat) :
    Option AppResult :=
  if appPairs df1 df2 = [] then none
  else
    some ⟨appPairs df1 df2, appSpread (appPairs df1 df2),
      appZscore (appPairs df1 df2) w, appHedge (appPairs df1 df2),
      appCorr (appPairs df1 df2) w⟩

/-!
## `data_ingestor.py`: the stream connector as a state machine

`stream_symbol` is an exception-swallowing `while True` loop:
connect, iterate over inbound messages, and on `ConnectionClosed` /
`ConnectionResetError` or any other exception (including a `json.loads`
parse failure, which aborts the current connection's message loop) sleep a
fixed 5 time units and reconnect.  One valid trade message
(`data.get("e") == "trade"`) persists exactly one row via `save_tick`.
-/

/-- One inbound feed message, as the connector classifies it:
unparseable JSON, a parseable non-trade event, or a trade event carrying
`{T (event/transact time, ms), p (price), q (quantity)}`. -/
inductive Msg where
  | malformed
  | nonTrade
  | trade (t : Nat) (p q : ℚ)
deriving DecidableEq, Repr

/-- One persisted row of the `ticks` table (`normalize` keeps the trade's
instant; the IST rendering of the timestamp string does not change it). -/
structure PTick where
  ts : Nat
  price : ℚ
  size : ℚ
deriving DecidableEq, Repr

/-- `normalize(msg)` followed by `save_tick`: the Tick written for a trade
(named apart from the library function of the same name). -/
def normalizeTick (t : Nat) (p q : ℚ) : PTick := ⟨t, p, q⟩

/-- Connector control state: about to call `websockets.connect`, inside the
message loop, or sleeping with `n` backoff time units remaining. -/
inductive CState where
  | connecting
  | streaming
  | backoff (n : Nat)
deriving DecidableEq, Repr

/-- Environment events driving one connector: connection established,
connection attempt failed, one inbound message, connection dropped mid-stream,
any other uncaught processing error, one time unit of `asyncio.sleep`. -/
inductive CEvent where
  | connected
  | connFail
  | msg (m : Msg)
  | connLost
  | err
  | tick
deriving DecidableEq, Repr

/-- The fixed backoff interval of `asyncio.sleep(5)`. -/
def backoffDelay : Nat := 5

/-- One transition of `stream_symbol`, with the ticks it persists.
A malformed message raises out of the message loop into the
`except Exception` handler, hence starts the backoff like a connection loss;
a non-trade message is silently skipped; events that cannot occur in a state
leave it unchanged. -/
def stepConn : CState → CEvent → CState × List PTick
  | .connecting, .connected => (.streaming, [])
  | .connecting, .connFail => (.backoff backoffDelay, [])
  | .connecting, .err => (.backoff backoffDelay, [])
  | .streaming, .msg .malformed => (.backoff backoffDelay, [])
  | .streaming, .msg .nonTrade => (.streaming, [])
  | .streaming, .msg (.trade t p q) => (.streaming, [normalizeTick t p q])
  | .streaming, .connLost => (.backoff backoffDelay, [])
  | .streaming, .err => (.backoff backoffDelay, [])
  | .backoff (n + 2), .tick => (.backoff (n + 1), [])
  | .backoff 1, .tick => (.connecting, [])
  | .backoff 0, .tick => (.connecting, [])
  | s, _ => (s, [])

/-- Run the connector over a finite event trace, collecting the persisted
ticks in order. -/
def runConn (s : CState) : List CEvent → CState × List PTick
  | [] => (s, [])
  | e :: es =>
    let sp := stepConn s e
    let rest := runConn sp.1 es
    (rest.1, sp.2 ++ rest.2)

/-!
## Heap model for the copy discipline of `compute_analytics`

`analytics_engine.compute_analytics` starts with `df = df.copy()` and the
only in-place write (`df["ts"] = pd.to_datetime(df["ts"], errors="coerce")`,
which retypes the `ts` column to datetime) targets that copy; every later
step rebinds the local name to freshly built frames.  We model caller-visible
frames as heap cells holding the rows together with the observable dtype of
the `ts` column, and the call as a heap transformer.
-/

/-- A heap-resident DataFrame: its rows and whether the `ts` column has been
coerced to the datetime dtype (false for a frame freshly read from SQLite). -/
structure DFrame where
  rows : List Tick
  tsDatetime : Bool
deriving DecidableEq, Repr

/-- `compute_analytics` as a transformer of a heap of frames, called on the
frame at address `a`: after the `df.empty` guard it allocates the copy at a
fresh address, performs the in-place `ts` coercion there, and computes the
result from the copied rows. -/
def compute_analytics_st (h : List DFrame) (a : Nat) (w : Nat) :
    List DFrame × List ARow :=
  match h[a]? with
  | none => (h, [])
  | some f =>
    if f.rows = [] then (h, [])
    else
      let h1 := h ++ [f]
      let h2 := h1.set h.length ⟨f.rows, true⟩
      (h2, compute_analytics f.rows w)

/-!
## Basic lemmas about the engine pipeline
-/

theorem align_nil_right : ∀ xs : List (Nat × ℚ), align xs [] = []
  | [] => rfl
  | (_, _) :: _ => rfl

theorem mergedOf_nil : mergedOf ([] : List Tick) = [] := rfl

theorem mergedOf_of_btcRows_nil {df : List Tick} (h : btcRows df = []) :
    mergedOf df = [] := by
  unfold mergedOf
  rw [h]
  rfl

theorem mergedOf_of_ethRows_nil {df : List Tick} (h : ethRows df = []) :
    mergedOf df = [] := by
  unfold mergedOf
  rw [h]
  exact align_nil_right _

theorem length_mkRows (m : List (Nat × ℚ × ℚ)) (w : Nat) :
    (mkRows m w).length = m.length := by
  unfold mkRows
  split <;> simp

/-- Every row built by `mkRows` carries the time and the two prices of one
aligned bucket, and its spread column is their difference. -/
theorem mem_mkRows {m : List (Nat × ℚ × ℚ)} {w : Nat} {r : ARow}
    (h : r ∈ mkRows m w) :
    ∃ e ∈ m, r.time = e.1 ∧ r.price_btc = e.2.1 ∧ r.price_eth = e.2.2 ∧
      r.spread = e.2.1 - e.2.2 := by
  unfold mkRows at h
  split at h
  · obtain ⟨ie, hie, rfl⟩ := List.mem_map.mp h
    refine ⟨ie.2, ?_, rfl, rfl, rfl, rfl⟩
    have := List.mem_enum_iff_getElem?.mp hie
    exact List.getElem?_mem this
  · obtain ⟨e, he, rfl⟩ := List.mem_map.mp h
    exact ⟨e, he, rfl, rfl, rfl, rfl⟩

theorem mem_of_mem_dropnaRows {rows : List ARow} {r : ARow}
    (h : r ∈ dropnaRows rows) : r ∈ rows :=
  (List.mem_filter.mp h).1

/-- When no guard fires, `compute_analytics` is the cleaned-up row list. -/
theorem compute_analytics_eq_of_ne {df : List Tick} {w : Nat}
    (h0 : df ≠ []) (hb : btcRows df ≠ []) (he : ethRows df ≠ [])
    (hm : mergedOf df ≠ []) :
    compute_analytics df w = dropnaRows (mkRows (mergedOf df) w) := by
  unfold compute_analytics
  rw [if_neg h0, if_neg (by simp [hb, he]), if_neg hm]

/-!
## Claims C1–C4 about `analytics_engine.compute_analytics`
-/

/-- Concrete frame with two aligned 1-second buckets, used by witnesses:
BTC ticks at seconds 0 and 1 (prices 10, 12), ETH ticks at the same seconds
(prices 4, 5). -/
def dfTwoBuckets : List Tick :=
  [⟨some 0, "btcusdt", some 10, 1⟩, ⟨some 1, "btcusdt", some 12, 1⟩,
   ⟨some 0, "ethusdt", some 4, 1⟩, ⟨some 1, "ethusdt", some 5, 1⟩]

/-- C1: for every tick DataFrame and window, if the number of aligned buckets
produced by `compute_analytics` is smaller than `windowSize` (and at least one
aligned bucket exists), every returned row has `zscore` exactly `0.0` and
`rolling_corr` exactly `0.0` — the degraded-mode output, not an error. -/
theorem C1_below_window_all_zero (df : List Tick) (w : Nat)
    (hlt : (mergedOf df).length < w) (hpos : 1 ≤ (mergedOf df).length) :
    ∀ r ∈ compute_analytics df w,
      r.zscore = some SqrtVal.zero ∧ r.rolling_corr = some SqrtVal.zero := by
  intro r hr
  have hm : mergedOf df ≠ [] := by
    intro h
    rw [h] at hpos
    exact absurd hpos (by simp)
  have h0 : df ≠ [] := by
    intro h
    rw [h] at hm
    exact hm mergedOf_nil
  have hb : btcRows df ≠ [] := fun h => hm (mergedOf_of_btcRows_nil h)
  have he : ethRows df ≠ [] := fun h => hm (mergedOf_of_ethRows_nil h)
  rw [compute_analytics_eq_of_ne h0 hb he hm] at hr
  have hr' := mem_of_mem_dropnaRows hr
  unfold mkRows at hr'
  rw [if_neg (Nat.not_le.mpr hlt)] at hr'
  obtain ⟨e, _, rfl⟩ := List.mem_map.mp hr'
  exact ⟨rfl, rfl⟩

/-- C1 witness: two aligned buckets with window 3; the first returned row of
the degraded mode has zero z-score and zero correlation. -/
theorem C1_below_window_all_zero_witness :
    (mergedOf dfTwoBuckets).length < 3 ∧ 1 ≤ (mergedOf dfTwoBuckets).length ∧
      ((⟨0, 10, 4, 6, some SqrtVal.zero, some SqrtVal.zero⟩ : ARow).zscore
          = some SqrtVal.zero ∧
        (⟨0, 10, 4, 6, some SqrtVal.zero, some SqrtVal.zero⟩ : ARow).rolling_corr
          = some SqrtVal.zero) :=
  ⟨by with_unfolding_all decide, by with_unfolding_all decide,
    C1_below_window_all_zero dfTwoBuckets 3 (by with_unfolding_all decide)
      (by with_unfolding_all decide) _ (by with_unfolding_all decide)⟩

/-- C2: in the pure-spread variant, for every row of the returned analytics,
`spread` equals `price_btc - price_eth` exactly (the window must be positive,
as pandas rejects a non-positive rolling window). -/
theorem C2_spread_is_difference (df : List Tick) (w : Nat) (_hw : 0 < w) :
    ∀ r ∈ compute_analytics df w, r.spread = r.price_btc - r.price_eth := by
  intro r hr
  by_cases h0 : df = []
  · rw [compute_analytics, if_pos h0] at hr
    exact absurd hr (List.not_mem_nil r)
  by_cases hb : btcRows df = []
  · rw [compute_analytics, if_neg h0, if_pos (Or.inl hb)] at hr
    exact absurd hr (List.not_mem_nil r)
  by_cases he : ethRows df = []
  · rw [compute_analytics, if_neg h0, if_pos (Or.inr he)] at hr
    exact absurd hr (List.not_mem_nil r)
  by_cases hm : mergedOf df = []
  · rw [compute_analytics, if_neg h0, if_neg (by simp [hb, he]), if_pos hm] at hr
    exact absurd hr (List.not_mem_nil r)
  rw [compute_analytics_eq_of_ne h0 hb he hm] at hr
  obtain ⟨e, _, _, hpb, hpe, hs⟩ := mem_mkRows (mem_of_mem_dropnaRows hr)
  rw [hs, hpb, hpe]

/-- C2 witness: concrete application to the two-bucket frame with window 3. -/
theorem C2_spread_is_difference_witness :
    0 < 3 ∧ ((⟨1, 12, 5, 7, some SqrtVal.zero, some SqrtVal.zero⟩ : ARow).spread
      = (⟨1, 12, 5, 7, some SqrtVal.zero, some SqrtVal.zero⟩ : ARow).price_btc
        - (⟨1, 12, 5, 7, some SqrtVal.zero, some SqrtVal.zero⟩ : ARow).price_eth) :=
  ⟨by decide, C2_spread_is_difference dfTwoBuckets 3 (by decide) _
    (by with_unfolding_all decide)⟩

/-- The C3 scenario frame: one BTC tick and one ETH tick, both at 09:00:00
(32400 seconds after midnight), with prices 100 and 50. -/
def c3df : List Tick :=
  [⟨some 32400, "BTCUSDT", some 100, 1⟩, ⟨some 32400, "ETHUSDT", some 50, 1⟩]

/-- C3 counterexample: with `window = 1` the single aligned sample is NOT
below the window (`1 >= 1`), so the rolling branch runs; the rolling standard
deviation and correlation of a one-sample window are NaN and the final
`dropna` removes the row — the result contains no row with spread 50,
z-score `0.0` and correlation `0.0` (it contains no row at all). -/
theorem C3_scenario_counterexample :
    ¬ ∃ r ∈ compute_analytics c3df 1,
        r.spread = 50 ∧ r.zscore = some SqrtVal.zero ∧
          r.rolling_corr = some SqrtVal.zero := by with_unfolding_all decide

/-- C3 amended: for one BTC tick at 09:00:00 price 100 and one ETH tick at
09:00:00 price 50 with `window = 1`, `compute_analytics` returns the empty
result: the rolling branch runs (`1 >= window`), its one-sample rolling
statistics are NaN, and the final `dropna` removes the only row. -/
theorem C3_scenario_amended : compute_analytics c3df 1 = [] := by
  with_unfolding_all decide

/-- Shared guard lemma: each degenerate case returns the empty list. -/
theorem analytics_empty_of_degenerate (df : List Tick) (w : Nat)
    (h : df = [] ∨ btcRows df = [] ∨ ethRows df = [] ∨ mergedOf df = []) :
    compute_analytics df w = [] := by
  by_cases h0 : df = []
  · rw [compute_analytics, if_pos h0]
  rcases h with h | h | h | h
  · exact absurd h h0
  · rw [compute_analytics, if_neg h0, if_pos (Or.inl h)]
  · rw [compute_analytics, if_neg h0, if_pos (Or.inr h)]
  · by_cases hb : btcRows df = []
    · rw [compute_analytics, if_neg h0, if_pos (Or.inl hb)]
    by_cases he : ethRows df = []
    · rw [compute_analytics, if_neg h0, if_pos (Or.inr he)]
    rw [compute_analytics, if_neg h0, if_neg (by simp [hb, he]), if_pos h]

/-- C4: an empty input frame, an input with no valid rows for one of the two
symbols, or no overlapping buckets after alignment each yield the empty
result — the empty-result condition, never a thrown fault (the embedding is a
total function; each guard returns `[]`). -/
theorem C4_empty_cases_return_empty (df : List Tick) (w : Nat)
    (h : df = [] ∨ btcRows df = [] ∨ ethRows df = [] ∨ mergedOf df = []) :
    compute_analytics df w = [] :=
  analytics_empty_of_degenerate df w h

/-- C4 witness: the empty frame gives the empty result. -/
theorem C4_empty_cases_return_empty_witness :
    (([] : List Tick) = [] ∨ btcRows [] = [] ∨ ethRows [] = [] ∨
        mergedOf [] = []) ∧
      compute_analytics [] 50 = [] :=
  ⟨Or.inl rfl, C4_empty_cases_return_empty [] 50 (Or.inl rfl)⟩

/-!
## Sortedness and uniqueness of the aligned buckets (claim C5)
-/

instance : IsTotal (Nat × String × ℚ) (fun a b => a.1 ≤ b.1) :=
  ⟨fun a b => Nat.le_total a.1 b.1⟩

instance : IsTrans (Nat × String × ℚ) (fun a b => a.1 ≤ b.1) :=
  ⟨fun _ _ _ h h2 => Nat.le_trans h h2⟩

theorem sortByTs_sorted (xs : List (Nat × String × ℚ)) :
    (sortByTs xs).Pairwise (fun a b => a.1 ≤ b.1) :=
  List.sorted_insertionSort _ xs

theorem btcRows_sorted (df : List Tick) :
    (btcRows df).Pairwise (fun a b => a.1 ≤ b.1) :=
  (sortByTs_sorted (validRows df)).sublist (List.filter_sublist _)

theorem ethRows_sorted (df : List Tick) :
    (ethRows df).Pairwise (fun a b => a.1 ≤ b.1) :=
  (sortByTs_sorted (validRows df)).sublist (List.filter_sublist _)

theorem priceSeries_pairwise {xs : List (Nat × String × ℚ)}
    (h : xs.Pairwise (fun a b => a.1 ≤ b.1)) :
    (priceSeries xs).Pairwise (fun a b => a.1 ≤ b.1) :=
  h.map _ (fun _ _ hab => hab)

/-- On a time-sorted series, resampling produces strictly increasing bucket
labels, each the left edge of the bucket of some input timestamp. -/
theorem resampleLast_pairwise_lt (g : Nat) :
    ∀ xs : List (Nat × ℚ), xs.Pairwise (fun a b => a.1 ≤ b.1) →
      (resampleLast g xs).Pairwise (fun a b => a.1 < b.1) ∧
        ∀ e ∈ resampleLast g xs, ∃ x ∈ xs, e.1 = x.1 / g * g
  | [], _ => ⟨List.Pairwise.nil, by simp [resampleLast]⟩
  | (t, p) :: rest, h => by
    obtain ⟨hhead, htail⟩ := List.pairwise_cons.mp h
    obtain ⟨ihp, ihm⟩ := resampleLast_pairwise_lt g rest htail
    rw [resampleLast]
    cases hres : resampleLast g rest with
    | nil =>
      refine ⟨by simp, ?_⟩
      intro e he
      simp only [List.mem_singleton] at he
      exact ⟨(t, p), List.mem_cons_self _ _, by rw [he]⟩
    | cons bq tail =>
      obtain ⟨b, q⟩ := bq
      rw [hres] at ihp ihm
      have hbmem : ∃ x ∈ rest, b = x.1 / g * g := by
        obtain ⟨x, hx, hbx⟩ := ihm (b, q) (List.mem_cons_self _ _)
        exact ⟨x, hx, hbx⟩
      obtain ⟨x, hx, hbx⟩ := hbmem
      have hble : t / g * g ≤ b := by
        rw [hbx]
        exact Nat.mul_le_mul_right g (Nat.div_le_div_right (hhead x hx))
      dsimp only
      by_cases heq : t / g * g = b
      · rw [if_pos heq]
        refine ⟨ihp, ?_⟩
        intro e he
        obtain ⟨y, hy, hey⟩ := ihm e he
        exact ⟨y, List.mem_cons_of_mem _ hy, hey⟩
      · rw [if_neg heq]
        constructor
        · rw [List.pairwise_cons]
          refine ⟨?_, ihp⟩
          intro e he
          rcases List.mem_cons.mp he with rfl | he'
          · exact Nat.lt_of_le_of_ne hble heq
          · exact Nat.lt_of_le_of_lt hble ((List.pairwise_cons.mp ihp).1 e he')
        · intro e he
          rcases List.mem_cons.mp he with rfl | he'
          · exact ⟨(t, p), List.mem_cons_self _ _, rfl⟩
          · obtain ⟨y, hy, hey⟩ := ihm e he'
            exact ⟨y, List.mem_cons_of_mem _ hy, hey⟩

/-- The keys of the aligned join form a sublist of the keys of the first
series. -/
theorem align_keys_sublist : ∀ xs ys : List (Nat × ℚ),
    ((align xs ys).map Prod.fst).Sublist (xs.map Prod.fst)
  | [], _ => by simp [align]
  | (a, p) :: as_, ys => by
    rw [align]
    cases hd : dropLt a ys with
    | nil => simp
    | cons bq bs =>
      obtain ⟨b, q⟩ := bq
      dsimp only
      by_cases heq : a = b
      · rw [if_pos heq]
        simpa using (align_keys_sublist as_ bs).cons₂ a
      · rw [if_neg heq]
        exact (align_keys_sublist as_ ((b, q) :: bs)).trans
          (List.sublist_cons_self a (List.map Prod.fst as_))

/-- The aligned time buckets of `compute_analytics` are pairwise distinct. -/
theorem mergedOf_keys_nodup (df : List Tick) :
    ((mergedOf df).map Prod.fst).Nodup := by
  have hb := priceSeries_pairwise (btcRows_sorted df)
  have hlt := (resampleLast_pairwise_lt 1 (priceSeries (btcRows df)) hb).1
  have hkeys :
      ((resampleLast 1 (priceSeries (btcRows df))).map Prod.fst).Pairwise
        (· < ·) :=
    List.pairwise_map.mpr hlt
  have hsub := align_keys_sublist (resampleLast 1 (priceSeries (btcRows df)))
    (resampleLast 1 (priceSeries (ethRows df)))
  exact (hkeys.sublist hsub).imp Nat.ne_of_lt

/-- C5: for any two tick streams, the output length of `compute_analytics` is
at most the number of aligned time buckets, those buckets are unique, and
every returned row carries the time and the two (present) prices of one
aligned bucket. -/
theorem C5_output_within_aligned_buckets (df : List Tick) (w : Nat)
    (_hw : 0 < w) :
    (compute_analytics df w).length ≤ (mergedOf df).length ∧
      ((mergedOf df).map Prod.fst).Nodup ∧
      ∀ r ∈ compute_analytics df w, ∃ e ∈ mergedOf df,
        r.time = e.1 ∧ r.price_btc = e.2.1 ∧ r.price_eth = e.2.2 := by
  refine ⟨?_, mergedOf_keys_nodup df, ?_⟩
  · by_cases h0 : df = []
    · rw [analytics_empty_of_degenerate df w (Or.inl h0)]
      simp
    by_cases hb : btcRows df = []
    · rw [analytics_empty_of_degenerate df w (Or.inr (Or.inl hb))]
      simp
    by_cases he : ethRows df = []
    · rw [analytics_empty_of_degenerate df w (Or.inr (Or.inr (Or.inl he)))]
      simp
    by_cases hm : mergedOf df = []
    · rw [analytics_empty_of_degenerate df w (Or.inr (Or.inr (Or.inr hm)))]
      simp
    rw [compute_analytics_eq_of_ne h0 hb he hm]
    calc (dropnaRows (mkRows (mergedOf df) w)).length
        ≤ (mkRows (mergedOf df) w).length := List.length_filter_le _ _
      _ = (mergedOf df).length := length_mkRows _ _
  · intro r hr
    by_cases h0 : df = []
    · rw [analytics_empty_of_degenerate df w (Or.inl h0)] at hr
      exact absurd hr (List.not_mem_nil r)
    by_cases hb : btcRows df = []
    · rw [analytics_empty_of_degenerate df w (Or.inr (Or.inl hb))] at hr
      exact absurd hr (List.not_mem_nil r)
    by_cases he : ethRows df = []
    · rw [analytics_empty_of_degenerate df w (Or.inr (Or.inr (Or.inl he)))] at hr
      exact absurd hr (List.not_mem_nil r)
    by_cases hm : mergedOf df = []
    · rw [analytics_empty_of_degenerate df w (Or.inr (Or.inr (Or.inr hm)))] at hr
      exact absurd hr (List.not_mem_nil r)
    rw [compute_analytics_eq_of_ne h0 hb he hm] at hr
    obtain ⟨e, he', ht, hpb, hpe, _⟩ := mem_mkRows (mem_of_mem_dropnaRows hr)
    exact ⟨e, he', ht, hpb, hpe⟩

/-- C5 witness: the two-bucket frame with window 3. -/
theorem C5_output_within_aligned_buckets_witness :
    0 < 3 ∧
      ((compute_analytics dfTwoBuckets 3).length ≤ (mergedOf dfTwoBuckets).length ∧
        ((mergedOf dfTwoBuckets).map Prod.fst).Nodup ∧
        ∀ r ∈ compute_analytics dfTwoBuckets 3, ∃ e ∈ mergedOf dfTwoBuckets,
          r.time = e.1 ∧ r.price_btc = e.2.1 ∧ r.price_eth = e.2.2) :=
  ⟨by decide, C5_output_within_aligned_buckets dfTwoBuckets 3 (by decide)⟩

/-!
## Claim C6: resampling is idempotent on already-gridded series
-/

/-- On a series whose timestamps already lie on the grid (multiples of `g`,
strictly increasing, hence one observation per bucket), taking the last price
per bucket returns the series unchanged. -/
theorem resampleLast_idem (g : Nat) :
    ∀ xs : List (Nat × ℚ), (∀ e ∈ xs, g ∣ e.1) →
      xs.Pairwise (fun a b => a.1 < b.1) → resampleLast g xs = xs
  | [], _, _ => rfl
  | (t, p) :: rest, hdvd, hpw => by
    obtain ⟨hhead, htail⟩ := List.pairwise_cons.mp hpw
    have ih := resampleLast_idem g rest
      (fun e he => hdvd e (List.mem_cons_of_mem _ he)) htail
    rw [resampleLast, ih]
    have htt : t / g * g = t :=
      Nat.div_mul_cancel (hdvd (t, p) (List.mem_cons_self _ _))
    cases rest with
    | nil => simp [htt]
    | cons y ys =>
      obtain ⟨ty, py⟩ := y
      dsimp only
      have hne : t / g * g ≠ ty := by
        rw [htt]
        exact Nat.ne_of_lt (hhead (ty, py) (List.mem_cons_self _ _))
      rw [if_neg hne, htt]

/-- Same statement for the price-and-size aggregation of `resample_data`. -/
theorem resampleAgg_idem (g : Nat) :
    ∀ xs : List (Nat × ℚ × ℚ), (∀ e ∈ xs, g ∣ e.1) →
      xs.Pairwise (fun a b => a.1 < b.1) → resampleAgg g xs = xs
  | [], _, _ => rfl
  | (t, p, s) :: rest, hdvd, hpw => by
    obtain ⟨hhead, htail⟩ := List.pairwise_cons.mp hpw
    have ih := resampleAgg_idem g rest
      (fun e he => hdvd e (List.mem_cons_of_mem _ he)) htail
    rw [resampleAgg, ih]
    have htt : t / g * g = t :=
      Nat.div_mul_cancel (hdvd (t, p, s) (List.mem_cons_self _ _))
    cases rest with
    | nil => simp [htt]
    | cons y ys =>
      obtain ⟨ty, py, sy⟩ := y
      dsimp only
      have hne : t / g * g ≠ ty := by
        rw [htt]
        exact Nat.ne_of_lt (hhead (ty, py, sy) (List.mem_cons_self _ _))
      rw [if_neg hne, htt]

/-- Rounding to the grid is the identity on grid points. -/
theorem roundTo_multiple (g t : Nat) (hg : 0 < g) (h : g ∣ t) :
    roundTo g t = t := by
  obtain ⟨m, rfl⟩ := h
  unfold roundTo
  rw [Nat.mul_add_div hg, Nat.div_eq_of_lt (Nat.div_lt_self hg one_lt_two),
    Nat.add_zero, Nat.mul_comm]

/-- C6: resampling is idempotent — a tick series already lying on the uniform
fixed-width grid at granularity `g` (timestamps are multiples of `g` and
strictly increasing) is returned unchanged, both by the engine's
last-price-per-bucket resampling and by the dashboard's `resample_data`
(last price, size total, index rounding). -/
theorem C6_resample_idempotent (g : Nat) (hg : 0 < g)
    (xs : List (Nat × ℚ)) (ys : List (Nat × ℚ × ℚ))
    (hxd : ∀ e ∈ xs, g ∣ e.1) (hxs : xs.Pairwise (fun a b => a.1 < b.1))
    (hyd : ∀ e ∈ ys, g ∣ e.1) (hys : ys.Pairwise (fun a b => a.1 < b.1)) :
    resampleLast g xs = xs ∧ resample_data g ys = ys := by
  refine ⟨resampleLast_idem g xs hxd hxs, ?_⟩
  unfold resample_data
  rw [resampleAgg_idem g ys hyd hys]
  have hmap : ∀ e ∈ ys, (roundTo g e.1, e.2.1, e.2.2) = e := by
    intro e he
    rw [roundTo_multiple g e.1 hg (hyd e he)]
  calc ys.map (fun e => (roundTo g e.1, e.2.1, e.2.2))
      = ys.map id := List.map_congr_left hmap
    _ = ys := List.map_id ys

/-- C6 witness: a two-bucket series on the 2-unit grid. -/
theorem C6_resample_idempotent_witness :
    0 < 2 ∧ (∀ e ∈ [((0 : Nat), (5 : ℚ)), (2, 6)], 2 ∣ e.1) ∧
      (∀ e ∈ [((0 : Nat), (5 : ℚ), (1 : ℚ)), (4, 7, 2)], 2 ∣ e.1) ∧
      (resampleLast 2 [(0, 5), (2, 6)] = [(0, 5), (2, 6)] ∧
        resample_data 2 [(0, 5, 1), (4, 7, 2)] = [(0, 5, 1), (4, 7, 2)]) :=
  ⟨by decide, by decide, by decide,
    C6_resample_idempotent 2 (by decide) [(0, 5), (2, 6)] [(0, 5, 1), (4, 7, 2)]
      (by decide) (by decide) (by decide) (by decide)⟩

/-!
## Claims C7 and C8: the stream connector
-/

/-- What one malformed message costs the connector: the parse failure raises
into the `except` handler, the connector backs off 5 time units and
reconnects.  The next feed message is received on the new connection. -/
def badCycle : List CEvent :=
  CEvent.msg Msg.malformed :: (List.replicate backoffDelay CEvent.tick ++
    [CEvent.connected])

/-- A failed connection attempt followed by the full backoff sleep. -/
def failCycle : List CEvent :=
  CEvent.connFail :: List.replicate backoffDelay CEvent.tick

/-- Running a trace decomposes over concatenation. -/
theorem runConn_append (s : CState) (xs ys : List CEvent) :
    runConn s (xs ++ ys) =
      ((runConn (runConn s xs).1 ys).1,
        (runConn s xs).2 ++ (runConn (runConn s xs).1 ys).2) := by
  induction xs generalizing s with
  | nil => simp [runConn]
  | cons e es ih =>
    simp [runConn, ih (stepConn s e).1]

theorem runConn_badCycle :
    runConn CState.streaming badCycle = (CState.streaming, []) := rfl

theorem runConn_badCycles : ∀ k : Nat,
    runConn CState.streaming (List.flatten (List.replicate k badCycle)) =
      (CState.streaming, [])
  | 0 => rfl
  | k + 1 => by
    rw [List.replicate_succ, List.flatten_cons, runConn_append, runConn_badCycle]
    simp [runConn_badCycles k]

theorem runConn_failCycle :
    runConn CState.connecting failCycle = (CState.connecting, []) := rfl

theorem runConn_failCycles : ∀ k : Nat,
    runConn CState.connecting (List.flatten (List.replicate k failCycle)) =
      (CState.connecting, [])
  | 0 => rfl
  | k + 1 => by
    rw [List.replicate_succ, List.flatten_cons, runConn_append, runConn_failCycle]
    simp [runConn_failCycles k]

/-- The C7 scenario trace: connect, then 1000 malformed messages (each one
aborts the current connection, so the code's reconnect cycle runs between
them), then one valid trade message. -/
def c7trace : List CEvent :=
  CEvent.connected :: (List.flatten (List.replicate 1000 badCycle) ++
    [CEvent.msg (Msg.trade 1700000000000 100 (1 / 2))])

/-- C7: malformed and non-trade feed messages are never persisted and are
never fatal to the connector: a non-trade message is silently skipped inside
the message loop, and a connector that receives 1000 consecutive malformed
messages followed by one valid trade message ends alive (streaming) having
persisted exactly the one Tick of the trade. -/
theorem C7_malformed_never_fatal_one_tick :
    stepConn CState.streaming (CEvent.msg Msg.nonTrade) =
        (CState.streaming, []) ∧
      runConn CState.connecting c7trace =
        (CState.streaming, [normalizeTick 1700000000000 100 (1 / 2)]) := by
  refine ⟨rfl, ?_⟩
  rw [c7trace, runConn]
  simp only [stepConn]
  rw [runConn_append, runConn_badCycles 1000]
  simp [runConn, stepConn, normalizeTick]

/-- C8: the connector loop has no terminal state: every error transition
(connection loss, connect failure, uncaught processing error, parse failure)
moves to a backoff of exactly 5 time units, the full backoff sleep returns it
to the connecting state, any number of consecutive failure/backoff cycles
leaves it ready to reconnect (no maximum retry count), and every state has an
outgoing transition that changes it (no terminal state except external
shutdown of the loop). -/
theorem C8_connector_runs_forever :
    (stepConn CState.streaming CEvent.connLost =
        (CState.backoff backoffDelay, []) ∧
      stepConn CState.streaming CEvent.err = (CState.backoff backoffDelay, []) ∧
      stepConn CState.connecting CEvent.connFail =
        (CState.backoff backoffDelay, []) ∧
      stepConn CState.streaming (CEvent.msg Msg.malformed) =
        (CState.backoff backoffDelay, [])) ∧
    runConn (CState.backoff backoffDelay) (List.replicate backoffDelay CEvent.tick)
        = (CState.connecting, []) ∧
    (∀ k : Nat, runConn CState.connecting
        (List.flatten (List.replicate k failCycle)) = (CState.connecting, [])) ∧
    (∀ s : CState, ∃ e : CEvent, (stepConn s e).1 ≠ s) := by
  refine ⟨⟨rfl, rfl, rfl, rfl⟩, rfl, runConn_failCycles, ?_⟩
  intro s
  cases s with
  | connecting => exact ⟨CEvent.connected, by decide⟩
  | streaming => exact ⟨CEvent.connLost, by decide⟩
  | backoff n =>
    refine ⟨CEvent.tick, ?_⟩
    match n with
    | 0 => decide
    | 1 => decide
    | m + 2 =>
      simp only [stepConn]
      intro hcon
      exact absurd (CState.backoff.inj hcon) (by omega)

/-!
## Claim C9: live-view before-window-is-full policy for corr vs z-score
-/

/-- First-bucket rolling correlation and z-score of a live-view result. -/
def firstCorrZ (r : AppResult) : Option (Option SqrtVal) × Option SqrtVal :=
  (r.rolling_corr[0]?, r.zscore[0]?)

/-- Resampled one-bucket-wide frames for the C9 scenario. -/
def c9df1 : List (Nat × ℚ × ℚ) := [(0, 1, 1), (1, 2, 1)]

/-- Second symbol's frame for the C9 scenario. -/
def c9df2 : List (Nat × ℚ × ℚ) := [(0, 1, 1), (1, 3, 1)]

/-- C9 counterexample: with two aligned buckets and window 2, the first
bucket lies before the window is full; the live-view `compute_analytics`
reports its z-score as `0.0` (the `fillna(0)`), but its rolling correlation
as NaN (`none`) — NOT `0.0` — because `rolling_corr` has no fill. -/
theorem C9_corr_not_zero_filled_counterexample :
    (app_compute_analytics c9df1 c9df2 2).map firstCorrZ =
      some (some none, some SqrtVal.zero) := by
  with_unfolding_all decide

/-- C9 amended: in the live-view variant, the z-score is reported as `0.0`
for every aligned bucket before the trailing window is full, but the rolling
correlation is left missing (NaN) there: only the z-score column has the
zero-fill policy. -/
theorem C9_zscore_filled_corr_left_nan (d1 d2 : List (Nat × ℚ × ℚ)) (w : Nat)
    (r : AppResult) (h : app_compute_analytics d1 d2 w = some r)
    (i : Nat) (hiw : i + 1 < w) :
    (i < r.rolling_corr.length → r.rolling_corr[i]? = some none) ∧
      (i < r.zscore.length → r.zscore[i]? = some SqrtVal.zero) := by
  unfold app_compute_analytics at h
  split at h
  · exact absurd h (by simp)
  · rw [Option.some.injEq] at h
    subst h
    constructor
    · intro hi
      simp only [appCorr, List.length_map, List.length_range] at hi ⊢
      rw [List.getElem?_map, List.getElem?_range hi, Option.map_some',
        corrAt, if_pos hiw]
    · intro hi
      simp only [appZscore, List.length_map, List.enum_length] at hi ⊢
      obtain ⟨v, hv⟩ : ∃ v, (appSpread (appPairs d1 d2))[i]? = some v :=
        ⟨_, List.getElem?_eq_getElem hi⟩
      rw [List.getElem?_map, List.getElem?_enum, hv, Option.map_some',
        Option.map_some', zscoreAt, if_pos hiw]
      rfl

/-- The live-view result on the C9 scenario (two buckets, window 2). -/
def rC9val : AppResult :=
  ⟨[(0, 1, 1), (1, 2, 3)], [1 / 2, 1 / 2], [SqrtVal.zero, SqrtVal.zero],
    1 / 2, [none, some ⟨1, 1⟩]⟩

/-- C9 amended witness: concrete two-bucket run with window 2, index 0. -/
theorem C9_zscore_filled_corr_left_nan_witness :
    app_compute_analytics c9df1 c9df2 2 = some rC9val ∧ 0 + 1 < 2 ∧
      ((0 < rC9val.rolling_corr.length → rC9val.rolling_corr[0]? = some none) ∧
        (0 < rC9val.zscore.length → rC9val.zscore[0]? = some SqrtVal.zero)) :=
  ⟨by with_unfolding_all decide, by decide,
    C9_zscore_filled_corr_left_nan c9df1 c9df2 2 rC9val
      (by with_unfolding_all decide) 0 (by decide)⟩

/-!
## Claim C10: the engine does not mutate the caller's frame
-/

/-- C10: `compute_analytics` operates on a copy: for every heap of frames and
every address holding the caller's frame, the caller's cell is unchanged by
the call (the in-place `ts` coercion targets the freshly allocated copy), and
the returned analytics is the pure function of the caller's rows. -/
theorem C10_caller_frame_unchanged (h : List DFrame) (a w : Nat) (f : DFrame)
    (hget : h[a]? = some f) :
    (compute_analytics_st h a w).1[a]? = some f ∧
      (compute_analytics_st h a w).2 = compute_analytics f.rows w := by
  have ha : a < h.length := by
    by_contra hge
    rw [getElem?_neg h a hge] at hget
    cases hget
  unfold compute_analytics_st
  rw [hget]
  dsimp only
  by_cases hr : f.rows = []
  · rw [if_pos hr, hr]
    exact ⟨hget, by rw [compute_analytics, if_pos rfl]⟩
  · rw [if_neg hr]
    refine ⟨?_, rfl⟩
    rw [List.getElem?_set_ne (Nat.ne_of_lt ha).symm,
      List.getElem?_append_left ha, hget]

/-- A one-cell heap holding a raw (not yet datetime-coerced) frame. -/
def c10heap : List DFrame := [⟨dfTwoBuckets, false⟩]

/-- C10 witness: concrete heap, address 0, window 50. -/
theorem C10_caller_frame_unchanged_witness :
    c10heap[0]? = some ⟨dfTwoBuckets, false⟩ ∧
      ((compute_analytics_st c10heap 0 50).1[0]? = some ⟨dfTwoBuckets, false⟩ ∧
        (compute_analytics_st c10heap 0 50).2 = compute_analytics dfTwoBuckets 50) :=
  ⟨rfl, C10_caller_frame_unchanged c10heap 0 50 ⟨dfTwoBuckets, false⟩ rfl⟩
